import Mathlib

/-!
Shallow embedding of the table-profiling logic of `analyze_clinical_trials.py`
and `analyze_clinical_trials_psycopg.py`.

The two scripts contain two pure functions each, `analyze_column_population`
(the column profiler) and `analyze_jsonb_field` (the nested-field profiler).
Records are JSON-decoded Python dictionaries; we embed them as association
lists of `JValue`s.  The nested-field profiler only prints; we embed each of
its print statements as a constituent of a structured `JsonbReport`, and model
the Python runtime errors its dynamic operations can raise (`len`, indexing,
`.items()`) with `Except String`.  Python numbers are embedded as integers;
no claim involves floating point.
-/

/-- A JSON-decoded Python value: `None`, `bool`, number, `str`, `list`, `dict`.
`null` doubles as Python `None`, which is what `dict.get` returns for a
missing key. -/
inductive JValue where
  | null
  | bool (b : Bool)
  | num (n : Int)
  | str (s : String)
  | arr (xs : List JValue)
  | obj (fields : List (String × JValue))

/-- One row of the table: a Python dict from column name to value, embedded as
an association list (keys unique in practice; lookup takes the first match,
as a Python dict would). -/
abbrev Record := List (String × JValue)

/-- Python `record.get(col)`: the stored value, or `None` when the key is
missing (JSON `null` and Python `None` are the same object, `JValue.null`). -/
def pyGet (r : Record) (col : String) : JValue :=
  (r.lookup col).getD JValue.null

/-- Python `type(value).__name__` on a JSON-decoded value. -/
def typeName : JValue → String
  | .null => "NoneType"
  | .bool _ => "bool"
  | .num _ => "int"
  | .str _ => "str"
  | .arr _ => "list"
  | .obj _ => "dict"

/-- Python `str(value)` on the values the scripts apply it to.  The scripts
only ever call `str` on scalars: containers are routed to the
`type-name with n items` descriptor branch of the column profiler, and the
nested-field profiler prints a value only under an
`isinstance(val, (str, int, float, bool))` guard.  The container cases below
are therefore unreachable from every embedded call path and only make the
function total. -/
def pyStr : JValue → String
  | .null => "None"
  | .bool true => "True"
  | .bool false => "False"
  | .num n => toString n
  | .str s => s
  | .arr _ => ""
  | .obj _ => ""

/-- Python truthiness (`bool(value)`) on a JSON-decoded value: `None`,
`False`, `0`, `''`, `[]` and an empty dict are falsy, everything else truthy. -/
def truthy : JValue → Bool
  | .null => false
  | .bool b => b
  | .num n => n != 0
  | .str s => !s.isEmpty
  | .arr xs => !xs.isEmpty
  | .obj fs => !fs.isEmpty

/-- Python `len(value)`: defined for strings, lists and dicts; raises
`TypeError` on numbers, booleans and `None`. -/
def pyLen : JValue → Except String Nat
  | .str s => .ok s.length
  | .arr xs => .ok xs.length
  | .obj fs => .ok fs.length
  | _ => .error "TypeError"

/-- Python `value[0]`: first element of a list, first character of a string,
`KeyError` on a dict without the key `0`, `TypeError` on anything else,
`IndexError` when empty. -/
def pyIndex0 : JValue → Except String JValue
  | .arr (x :: _) => .ok x
  | .arr [] => .error "IndexError"
  | .str s =>
    match s.data with
    | c :: _ => .ok (.str (String.mk [c]))
    | [] => .error "IndexError"
  | .obj _ => .error "KeyError"
  | _ => .error "TypeError"

/-- Python `value.items()`: the key-value pairs of a dict, `AttributeError`
on any non-dict value. -/
def pyItems : JValue → Except String (List (String × JValue))
  | .obj fs => .ok fs
  | _ => .error "AttributeError"

/-- Python string comparison `s <= t`: lexicographic by code point. -/
def strLeB : List Char → List Char → Bool
  | [], _ => true
  | _ :: _, [] => false
  | a :: as, b :: bs => if a < b then true else if b < a then false else strLeB as bs

/-- Python string comparison on `String`. -/
def pyStrLe (s t : String) : Bool :=
  strLeB s.data t.data

/-- Insert a string into an already sorted list (one step of a stable
comparison sort). -/
def insertSorted (s : String) : List String → List String
  | [] => [s]
  | t :: ts => if pyStrLe s t then s :: t :: ts else t :: insertSorted s ts

/-- Python `sorted` on a list of strings: ascending lexicographic
(code-point) order, realised as an insertion sort. -/
def pySorted : List String → List String
  | [] => []
  | s :: ss => insertSorted s (pySorted ss)

/-- The per-column statistics dict built by `analyze_column_population`
(percentage kept exact as a rational). -/
structure ColumnStat where
  populated : Nat
  total : Nat
  percentage : Rat
  type : String
  sample_values : List String
deriving DecidableEq, Repr

/-- The loop state of `analyze_column_population`s inner per-column loop:
the `populated` counter, the `sample_values` list and the `data_types`
set (embedded as a list deduplicated on insertion, a determinisation of
Python set iteration order). -/
structure ColAcc where
  populated : Nat
  samples : List String
  dtypes : List String
deriving DecidableEq, Repr

/-- The structural part of what `analyze_jsonb_field` prints after the
populated count: the array branch, the object branch, or nothing (a first
populated value that matches neither `isinstance` check). -/
inductive ShapeInfo where
  | arrayShape (lengths : List Nat) (sampleItem : Option (List (String × String)))
  | objectShape (allKeys : List String) (sampleFields : List (String × String × Option String))
  | noStructure
deriving DecidableEq, Repr

/-- Everything `analyze_jsonb_field` prints: either the no-populated-fields
message, or the populated count followed by the shape information. -/
inductive JsonbReport where
  | noPopulated
  | found (count : Nat) (shape : ShapeInfo)
deriving DecidableEq, Repr

namespace CT

/-- The populated test of `analyze_clinical_trials.py` line 162:
`value is not None and value != '' and value != []`.  Cross-type equality
with `''` or `[]` is always false in Python, so only the string case tests
`!= ''` and only the list case tests `!= []`. -/
def is_populated (value : JValue) : Bool :=
  match value with
  | .null => false
  | .str s => !(s == "")
  | .arr xs => !xs.isEmpty
  | _ => true

/-- Sample-value rendering of `analyze_clinical_trials.py` lines 165-168:
containers become `type-name with n items`, scalars are stringified and
truncated to 50 characters with a trailing `...` when longer. -/
def formatSample : JValue → String
  | .arr xs => "list with " ++ toString xs.length ++ " items"
  | .obj fs => "dict with " ++ toString fs.length ++ " items"
  | value =>
    if (pyStr value).length > 50 then (pyStr value).take 50 ++ "..." else pyStr value

/-- `data_types.add(type(value).__name__)`: set insertion, embedded as
append-if-absent. -/
def addType (ts : List String) (t : String) : List String :=
  if t ∈ ts then ts else ts ++ [t]

/-- One iteration of the per-record loop of `analyze_column_population`
(lines 160-169) for a fixed column. -/
def colStep (col : String) (acc : ColAcc) (record : Record) : ColAcc :=
  let value := pyGet record col
  if is_populated value then
    { populated := acc.populated + 1
      samples :=
        if acc.samples.length < 3 then acc.samples ++ [formatSample value]
        else acc.samples
      dtypes := addType acc.dtypes (typeName value) }
  else acc

/-- Lines 149-151: `all_columns` as a set, the union of the key sets of all
records (the set is embedded as a deduplicated list; its order is irrelevant
because the function only consumes it through `sorted`). -/
def all_columns (records : List Record) : List String :=
  (records.foldl (fun acc record => acc ++ record.map Prod.fst) []).dedup

/-- `analyze_column_population` (analyze_clinical_trials.py lines 143-179):
empty input short-circuits to the empty dict; otherwise one `ColumnStat` per
column, columns in `sorted` order. -/
def analyze_column_population (records : List Record) : List (String × ColumnStat) :=
  if records.isEmpty then []
  else
    (pySorted (all_columns records)).map fun col =>
      let acc := records.foldl (colStep col) ⟨0, [], []⟩
      (col,
        { populated := acc.populated
          total := records.length
          percentage := (acc.populated : Rat) / (records.length : Rat) * 100
          type := if acc.dtypes.isEmpty then "unknown" else String.intercalate ", " acc.dtypes
          sample_values := acc.samples })

/-- Line 184: `[r.get(field_name) for r in records if r.get(field_name)]`. -/
def field_values (records : List Record) (field_name : String) : List JValue :=
  (records.map fun r => pyGet r field_name).filter truthy

/-- Lines 198-199 of the array branch: scan the populated values in order for
the first one that is truthy and has positive `len` (both `len` calls can
raise on an unsized value). -/
def findSampleSource : List JValue → Except String (Option JValue)
  | [] => .ok none
  | values :: rest =>
    if truthy values then
      match pyLen values with
      | .error e => .error e
      | .ok n => if n > 0 then .ok (some values) else findSampleSource rest
    else findSampleSource rest

/-- Lines 201-204: take `values[0]`, iterate its `.items()` and report each
key with its runtime type name (either dynamic operation can raise). -/
def sampleItemReport (sampleSrc : Option JValue) :
    Except String (Option (List (String × String))) :=
  match sampleSrc with
  | none => .ok none
  | some values =>
    match pyIndex0 values with
    | .error e => .error e
    | .ok sample_item =>
      match pyItems sample_item with
      | .error e => .error e
      | .ok fields => .ok (some (fields.map fun kv => (kv.1, typeName kv.2)))

/-- The `isinstance(val, (str, int, float, bool))` guard of line 224 (`None`
and containers fail it). -/
def isScalarForPrint : JValue → Bool
  | .str _ => true
  | .num _ => true
  | .bool _ => true
  | _ => false

/-- `analyze_jsonb_field` (analyze_clinical_trials.py lines 182-227), with
each print statement embedded as a constituent of the returned report and
Python runtime errors as `Except.error`. -/
def analyze_jsonb_field (records : List Record) (field_name : String) :
    Except String JsonbReport :=
  let fv := field_values records field_name
  match fv with
  | [] => .ok .noPopulated
  | first :: _ =>
    match first with
    | .arr _ =>
      match (fv.take 5).mapM pyLen with
      | .error e => .error e
      | .ok lengths =>
        match findSampleSource fv with
        | .error e => .error e
        | .ok src =>
          match sampleItemReport src with
          | .error e => .error e
          | .ok item => .ok (.found fv.length (.arrayShape lengths item))
    | .obj fs =>
      let all_keys :=
        (fv.foldl (fun acc value =>
          match value with
          | .obj ks => acc ++ ks.map Prod.fst
          | _ => acc) []).dedup
      let sampleFields := fs.map fun kv =>
        (kv.1, typeName kv.2,
          if isScalarForPrint kv.2 then some ((pyStr kv.2).take 50) else none)
      .ok (.found fv.length (.objectShape (pySorted all_keys) sampleFields))
    | _ => .ok (.found fv.length .noStructure)

end CT

namespace PG

/-- The populated test of `analyze_clinical_trials_psycopg.py` line 267:
`value is not None and value != '' and value != []` (byte-identical to the
supabase script). -/
def is_populated (value : JValue) : Bool :=
  match value with
  | .null => false
  | .str s => !(s == "")
  | .arr xs => !xs.isEmpty
  | _ => true

/-- Sample-value rendering of `analyze_clinical_trials_psycopg.py`
lines 270-273. -/
def formatSample : JValue → String
  | .arr xs => "list with " ++ toString xs.length ++ " items"
  | .obj fs => "dict with " ++ toString fs.length ++ " items"
  | value =>
    if (pyStr value).length > 50 then (pyStr value).take 50 ++ "..." else pyStr value

/-- `data_types.add(type(value).__name__)` of the psycopg script. -/
def addType (ts : List String) (t : String) : List String :=
  if t ∈ ts then ts else ts ++ [t]

/-- One iteration of the per-record loop of the psycopg script's
`analyze_column_population` (lines 265-274). -/
def colStep (col : String) (acc : ColAcc) (record : Record) : ColAcc :=
  let value := pyGet record col
  if is_populated value then
    { populated := acc.populated + 1
      samples :=
        if acc.samples.length < 3 then acc.samples ++ [formatSample value]
        else acc.samples
      dtypes := addType acc.dtypes (typeName value) }
  else acc

/-- Lines 254-257 of the psycopg script: the union of key sets. -/
def all_columns (records : List Record) : List String :=
  (records.foldl (fun acc record => acc ++ record.map Prod.fst) []).dedup

/-- `analyze_column_population` (analyze_clinical_trials_psycopg.py
lines 250-284). -/
def analyze_column_population (records : List Record) : List (String × ColumnStat) :=
  if records.isEmpty then []
  else
    (pySorted (all_columns records)).map fun col =>
      let acc := records.foldl (colStep col) ⟨0, [], []⟩
      (col,
        { populated := acc.populated
          total := records.length
          percentage := (acc.populated : Rat) / (records.length : Rat) * 100
          type := if acc.dtypes.isEmpty then "unknown" else String.intercalate ", " acc.dtypes
          sample_values := acc.samples })

/-- Line 291 of the psycopg script: the populated-values comprehension. -/
def field_values (records : List Record) (field_name : String) : List JValue :=
  (records.map fun r => pyGet r field_name).filter truthy

/-- Lines 305-306 of the psycopg script's array branch. -/
def findSampleSource : List JValue → Except String (Option JValue)
  | [] => .ok none
  | values :: rest =>
    if truthy values then
      match pyLen values with
      | .error e => .error e
      | .ok n => if n > 0 then .ok (some values) else findSampleSource rest
    else findSampleSource rest

/-- Lines 308-311 of the psycopg script. -/
def sampleItemReport (sampleSrc : Option JValue) :
    Except String (Option (List (String × String))) :=
  match sampleSrc with
  | none => .ok none
  | some values =>
    match pyIndex0 values with
    | .error e => .error e
    | .ok sample_item =>
      match pyItems sample_item with
      | .error e => .error e
      | .ok fields => .ok (some (fields.map fun kv => (kv.1, typeName kv.2)))

/-- The `isinstance(val, (str, int, float, bool))` guard of line 331. -/
def isScalarForPrint : JValue → Bool
  | .str _ => true
  | .num _ => true
  | .bool _ => true
  | _ => false

/-- `analyze_jsonb_field` (analyze_clinical_trials_psycopg.py
lines 289-334). -/
def analyze_jsonb_field (records : List Record) (field_name : String) :
    Except String JsonbReport :=
  let fv := field_values records field_name
  match fv with
  | [] => .ok .noPopulated
  | first :: _ =>
    match first with
    | .arr _ =>
      match (fv.take 5).mapM pyLen with
      | .error e => .error e
      | .ok lengths =>
        match findSampleSource fv with
        | .error e => .error e
        | .ok src =>
          match sampleItemReport src with
          | .error e => .error e
          | .ok item => .ok (.found fv.length (.arrayShape lengths item))
    | .obj fs =>
      let all_keys :=
        (fv.foldl (fun acc value =>
          match value with
          | .obj ks => acc ++ ks.map Prod.fst
          | _ => acc) []).dedup
      let sampleFields := fs.map fun kv =>
        (kv.1, typeName kv.2,
          if isScalarForPrint kv.2 then some ((pyStr kv.2).take 50) else none)
      .ok (.found fv.length (.objectShape (pySorted all_keys) sampleFields))
    | _ => .ok (.found fv.length .noStructure)

end PG

/-! Specification-side helper predicates used only to state the claims. -/

/-- The value is a Python list. -/
def isArr : JValue → Bool
  | .arr _ => true
  | _ => false

/-- The value is a Python list with at least one element. -/
def isNonEmptyArr : JValue → Bool
  | .arr (_ :: _) => true
  | _ => false

/-- The length of an array value (0 on non-arrays; only applied under an
all-arrays hypothesis). -/
def arrLen : JValue → Nat
  | .arr xs => xs.length
  | _ => 0

/-- The key/type layout of the first element of an array whose first element
is an object; `none` otherwise. -/
def elemLayout : JValue → Option (List (String × String))
  | .arr (JValue.obj gs :: _) => some (gs.map fun kv => (kv.1, typeName kv.2))
  | _ => none

/-- The first element of the first non-empty array among the populated
values, when there is one, is an object (vacuously true otherwise). -/
def firstElemObjOk (l : List JValue) : Bool :=
  match l.find? isNonEmptyArr with
  | some (.arr (JValue.obj _ :: _)) => true
  | some _ => false
  | none => true

/-- The head of the list of populated values is an array. -/
def headIsArr : List JValue → Bool
  | JValue.arr _ :: _ => true
  | _ => false

/-- The value is neither a list nor a dict (the shapes that match one of the
two `isinstance` branches of the nested-field profiler). -/
def notContainer : JValue → Bool
  | .arr _ => false
  | .obj _ => false
  | _ => true

/-- The value is a scalar in the sense of the column profiler's sample
formatting (anything but a list or a dict takes the stringification branch). -/
def isScalarValue : JValue → Bool
  | .arr _ => false
  | .obj _ => false
  | _ => true

/-- The keys of an object value (empty for non-objects). -/
def objKeys : JValue → List String
  | .obj ks => ks.map Prod.fst
  | _ => []

/-- The sorted `all_keys` union the object branch of the nested-field
profiler builds: keys of every dict value, deduplicated and sorted. -/
def sortedObjKeys (l : List JValue) : List String :=
  pySorted ((l.foldl (fun acc value =>
    match value with
    | JValue.obj ks => acc ++ ks.map Prod.fst
    | _ => acc) []).dedup)

/-- Lexicographic (code-point) order on strings, specified through Mathlib
`List.Lex` independently of the executable comparison driving `pySorted`. -/
def lexLe (a b : String) : Prop :=
  a = b ∨ List.Lex (· < ·) a.data b.data

/-! Lemmas about the string sort. -/

/-- The executable comparison is the lexicographic order. -/
theorem strLeB_iff : ∀ as bs : List Char,
    strLeB as bs = true ↔ (as = bs ∨ List.Lex (· < ·) as bs) := by
  intro as
  induction as with
  | nil =>
    intro bs
    cases bs with
    | nil => simp [strLeB]
    | cons b bs =>
      simp only [strLeB, true_iff]
      exact Or.inr List.Lex.nil
  | cons a as ih =>
    intro bs
    cases bs with
    | nil =>
      refine iff_of_false (by simp [strLeB]) ?_
      rintro (h | h)
      · exact List.noConfusion h
      · cases h
    | cons b bs =>
      simp only [strLeB]
      rcases lt_trichotomy a b with hab | hab | hab
      · rw [if_pos hab]
        exact iff_of_true rfl (Or.inr (List.Lex.rel hab))
      · subst hab
        rw [if_neg (lt_irrefl a), if_neg (lt_irrefl a), ih bs]
        constructor
        · rintro (rfl | h)
          · exact Or.inl rfl
          · exact Or.inr (List.Lex.cons h)
        · rintro (h | h)
          · injection h with _ h2
            exact Or.inl h2
          · cases h with
            | cons h2 => exact Or.inr h2
            | rel h2 => exact absurd h2 (lt_irrefl a)
      · rw [if_neg (lt_asymm hab), if_pos hab]
        refine iff_of_false (by simp) ?_
        rintro (h | h)
        · injection h with h1 _
          subst h1
          exact absurd hab (lt_irrefl a)
        · cases h with
          | cons h2 => exact absurd hab (lt_irrefl a)
          | rel h2 => exact absurd h2 (lt_asymm hab)

/-- The executable string comparison is the lexicographic order on strings. -/
theorem pyStrLe_iff (a b : String) : pyStrLe a b = true ↔ lexLe a b := by
  unfold pyStrLe lexLe
  rw [strLeB_iff]
  constructor
  · rintro (h | h)
    · exact Or.inl (String.ext h)
    · exact Or.inr h
  · rintro (rfl | h)
    · exact Or.inl rfl
    · exact Or.inr h

/-- The comparison is total. -/
theorem strLeB_total : ∀ as bs : List Char, strLeB as bs = true ∨ strLeB bs as = true := by
  intro as
  induction as with
  | nil => intro bs; exact Or.inl rfl
  | cons a as ih =>
    intro bs
    cases bs with
    | nil => exact Or.inr rfl
    | cons b bs =>
      simp only [strLeB]
      rcases lt_trichotomy a b with h | h | h
      · rw [if_pos h]; exact Or.inl rfl
      · subst h
        simp only [lt_self_iff_false, if_false]
        exact ih bs
      · rw [if_neg (lt_asymm h), if_pos h, if_neg (lt_asymm h), if_pos h]
        exact Or.inr rfl

/-- The comparison is transitive. -/
theorem strLeB_trans : ∀ as bs cs : List Char,
    strLeB as bs = true → strLeB bs cs = true → strLeB as cs = true := by
  intro as
  induction as with
  | nil => intro bs cs _ _; rfl
  | cons a as ih =>
    intro bs cs hab hbc
    cases bs with
    | nil => simp [strLeB] at hab
    | cons b bs =>
      cases cs with
      | nil => simp [strLeB] at hbc
      | cons c cs =>
        simp only [strLeB] at hab hbc ⊢
        rcases lt_trichotomy a b with h1 | h1 | h1
        · rcases lt_trichotomy b c with h2 | h2 | h2
          · rw [if_pos (lt_trans h1 h2)]
          · subst h2; rw [if_pos h1]
          · rw [if_neg (lt_asymm h2), if_pos h2] at hbc
            exact absurd hbc (by simp)
        · subst h1
          rw [if_neg (lt_irrefl a), if_neg (lt_irrefl a)] at hab
          rcases lt_trichotomy a c with h2 | h2 | h2
          · rw [if_pos h2]
          · subst h2
            rw [if_neg (lt_irrefl a), if_neg (lt_irrefl a)] at hbc ⊢
            exact ih bs cs hab hbc
          · rw [if_neg (lt_asymm h2), if_pos h2] at hbc
            exact absurd hbc (by simp)
        · rw [if_neg (lt_asymm h1), if_pos h1] at hab
          exact absurd hab (by simp)

/-- Insertion keeps exactly the old elements plus the new one. -/
theorem perm_insertSorted (s : String) :
    ∀ l : List String, (insertSorted s l).Perm (s :: l) := by
  intro l
  induction l with
  | nil => exact List.Perm.refl _
  | cons t ts ih =>
    simp only [insertSorted]
    by_cases h : pyStrLe s t = true
    · rw [if_pos h]
    · rw [if_neg h]
      exact (ih.cons t).trans (List.Perm.swap s t ts)

/-- The sort is a permutation of its input. -/
theorem perm_pySorted : ∀ l : List String, (pySorted l).Perm l := by
  intro l
  induction l with
  | nil => exact List.Perm.refl _
  | cons s ss ih =>
    exact ((perm_insertSorted s (pySorted ss)).trans (ih.cons s))

/-- Membership in the sort output. -/
theorem mem_pySorted (x : String) (l : List String) : x ∈ pySorted l ↔ x ∈ l :=
  (perm_pySorted l).mem_iff

/-- Inserting into a sorted list yields a sorted list. -/
theorem sorted_insertSorted (s : String) :
    ∀ l : List String, List.Pairwise (fun a b => pyStrLe a b = true) l →
      List.Pairwise (fun a b => pyStrLe a b = true) (insertSorted s l) := by
  intro l
  induction l with
  | nil => intro _; simp [insertSorted]
  | cons t ts ih =>
    intro hl
    rw [List.pairwise_cons] at hl
    obtain ⟨ht, hts⟩ := hl
    simp only [insertSorted]
    by_cases h : pyStrLe s t = true
    · rw [if_pos h]
      refine List.Pairwise.cons ?_ (List.Pairwise.cons ht hts)
      intro y hy
      rcases List.mem_cons.mp hy with rfl | hy
      · exact h
      · exact strLeB_trans _ _ _ h (ht y hy)
    · rw [if_neg h]
      refine List.Pairwise.cons ?_ (ih hts)
      intro y hy
      rcases List.mem_cons.mp ((perm_insertSorted s ts).mem_iff.mp hy) with rfl | hy
      · rcases strLeB_total y.data t.data with hyt | hty
        · exact absurd hyt h
        · exact hty
      · exact ht y hy

/-- The sort output is sorted for the executable comparison. -/
theorem sorted_pySorted :
    ∀ l : List String, List.Pairwise (fun a b => pyStrLe a b = true) (pySorted l) := by
  intro l
  induction l with
  | nil => simp [pySorted]
  | cons s ss ih => exact sorted_insertSorted s (pySorted ss) ih

/-- The sort output is sorted for the lexicographic order. -/
theorem sorted_lexLe_pySorted (l : List String) :
    List.Pairwise lexLe (pySorted l) :=
  (sorted_pySorted l).imp fun h => (pyStrLe_iff _ _).mp h

/-- One loop step's effect on the `populated` counter. -/
theorem ct_colStep_populated (col : String) (acc : ColAcc) (r : Record) :
    (CT.colStep col acc r).populated
      = acc.populated + (if CT.is_populated (pyGet r col) then 1 else 0) := by
  by_cases h : CT.is_populated (pyGet r col) = true <;> simp [CT.colStep, h]

/-- One loop step's effect on the `sample_values` list. -/
theorem ct_colStep_samples (col : String) (acc : ColAcc) (r : Record) :
    (CT.colStep col acc r).samples
      = if CT.is_populated (pyGet r col) = true ∧ acc.samples.length < 3
        then acc.samples ++ [CT.formatSample (pyGet r col)]
        else acc.samples := by
  by_cases h : CT.is_populated (pyGet r col) = true
  · by_cases h3 : acc.samples.length < 3 <;> simp [CT.colStep, h, h3]
  · simp [CT.colStep, h]

/-- The loop counts exactly the records whose value for the column passes the
populated test. -/
theorem ct_foldl_populated (col : String) :
    ∀ (l : List Record) (acc : ColAcc),
      (l.foldl (CT.colStep col) acc).populated
        = acc.populated + l.countP (fun r => CT.is_populated (pyGet r col)) := by
  intro l
  induction l with
  | nil => intro acc; simp
  | cons r t ih =>
    intro acc
    rw [List.foldl_cons, ih, List.countP_cons, ct_colStep_populated]
    by_cases h : CT.is_populated (pyGet r col) = true
    · simp only [h, if_true]; omega
    · simp only [h, if_false]; omega

/-- The loop collects the renderings of the first `3 - #already collected`
populated values, in record order. -/
theorem ct_foldl_samples (col : String) :
    ∀ (l : List Record) (acc : ColAcc),
      (l.foldl (CT.colStep col) acc).samples
        = acc.samples
          ++ (((l.filter fun r => CT.is_populated (pyGet r col)).map
                fun r => CT.formatSample (pyGet r col)).take (3 - acc.samples.length)) := by
  intro l
  induction l with
  | nil => intro acc; simp
  | cons r t ih =>
    intro acc
    rw [List.foldl_cons, ih, ct_colStep_samples, List.filter_cons]
    by_cases h : CT.is_populated (pyGet r col) = true
    · by_cases h3 : acc.samples.length < 3
      · have hsub : 3 - acc.samples.length = (3 - (acc.samples.length + 1)) + 1 := by omega
        simp only [h, h3, and_self, if_true, if_pos, List.length_append,
          List.length_singleton, List.map_cons, hsub, List.take_succ_cons,
          List.append_assoc, List.singleton_append]
      · have hz : 3 - acc.samples.length = 0 := by omega
        simp [h, h3, hz]
    · simp [h]

/-- Membership in a fold that appends a list per element. -/
theorem mem_foldl_append {α β : Type} (f : β → List α) (l : List β) :
    ∀ (init : List α) (x : α),
      x ∈ l.foldl (fun acc r => acc ++ f r) init ↔ x ∈ init ∨ ∃ r ∈ l, x ∈ f r := by
  induction l with
  | nil => intro init x; simp
  | cons b t ih =>
    intro init x
    rw [List.foldl_cons, ih]
    simp only [List.mem_append, List.mem_cons, or_assoc]
    constructor
    · rintro (h | h | ⟨r, hr, hx⟩)
      · exact Or.inl h
      · exact Or.inr ⟨b, Or.inl rfl, h⟩
      · exact Or.inr ⟨r, Or.inr hr, hx⟩
    · rintro (h | ⟨r, hr | hr, hx⟩)
      · exact Or.inl h
      · exact Or.inr (Or.inl (hr ▸ hx))
      · exact Or.inr (Or.inr ⟨r, hr, hx⟩)

/-- What membership in the output of the column profiler says about the
statistics of that column. -/
theorem ct_acp_mem_spec (records : List Record) (col : String) (stat : ColumnStat)
    (h : (col, stat) ∈ CT.analyze_column_population records) :
    stat.populated = records.countP (fun r => CT.is_populated (pyGet r col))
    ∧ stat.total = records.length
    ∧ stat.sample_values
        = ((records.filter fun r => CT.is_populated (pyGet r col)).map
            fun r => CT.formatSample (pyGet r col)).take 3 := by
  unfold CT.analyze_column_population at h
  by_cases he : records.isEmpty = true
  · rw [if_pos he] at h
    exact absurd h (List.not_mem_nil _)
  · rw [if_neg he] at h
    obtain ⟨c, hc, heq⟩ := List.mem_map.mp h
    obtain ⟨hcol, hstat⟩ := Prod.mk.injEq .. |>.mp heq
    subst hcol
    subst hstat
    refine ⟨?_, rfl, ?_⟩
    · simpa using ct_foldl_populated c records ⟨0, [], []⟩
    · simpa using ct_foldl_samples c records ⟨0, [], []⟩

/-- Concrete-input helper: when the sorted column list is a singleton, the
profiler output is the corresponding singleton, giving a membership fact
without evaluating the rational percentage inside a kernel reduction. -/
theorem ct_acp_entry (records : List Record) (col : String) (acc : ColAcc)
    (hne : records.isEmpty = false)
    (hcols : pySorted (CT.all_columns records) = [col])
    (hacc : records.foldl (CT.colStep col) ⟨0, [], []⟩ = acc) :
    (col,
      ({ populated := acc.populated
         total := records.length
         percentage := (acc.populated : Rat) / (records.length : Rat) * 100
         type := if acc.dtypes.isEmpty then "unknown"
                 else String.intercalate ", " acc.dtypes
         sample_values := acc.samples } : ColumnStat))
      ∈ CT.analyze_column_population records := by
  unfold CT.analyze_column_population
  rw [if_neg (by simp [hne]), hcols]
  simp only [List.map_cons, List.map_nil]
  rw [hacc]
  exact List.mem_singleton.mpr rfl

/-! The claims. -/

/-- Claim C1: for every record sequence and every column, the column profiler
counts a value as populated iff it is present, non-null, not the empty string
and not the empty array; `0`, `False` and the empty dict are counted as
populated, while `None`, `""` and `[]` never are. -/
theorem claim_C1_populated_rule :
    (∀ v : JValue,
      CT.is_populated v = true
        ↔ ¬(v = JValue.null ∨ v = JValue.str "" ∨ v = JValue.arr []))
    ∧ CT.is_populated (JValue.num 0) = true
    ∧ CT.is_populated (JValue.bool false) = true
    ∧ CT.is_populated (JValue.obj []) = true
    ∧ CT.is_populated JValue.null = false
    ∧ CT.is_populated (JValue.str "") = false
    ∧ CT.is_populated (JValue.arr []) = false
    ∧ ∀ (records : List Record) (col : String) (stat : ColumnStat),
        (col, stat) ∈ CT.analyze_column_population records →
        stat.populated = records.countP (fun r => CT.is_populated (pyGet r col)) := by
  refine ⟨?_, rfl, rfl, rfl, rfl, rfl, rfl, ?_⟩
  · intro v
    cases v with
    | null => simp [CT.is_populated]
    | bool b => simp [CT.is_populated]
    | num n => simp [CT.is_populated]
    | str s => simp [CT.is_populated, String.isEmpty_iff]
    | arr xs => simp [CT.is_populated, List.isEmpty_iff]
    | obj fs => simp [CT.is_populated]
  · intro records col stat h
    exact (ct_acp_mem_spec records col stat h).1

/-- Witness for C1 at a concrete input: the column `a` of two records, one
holding `0` (populated) and one holding `null` (not populated). -/
theorem claim_C1_witness :
    (("a", ({ populated := (1 : Nat), total := 2,
              percentage := ((1 : Nat) : Rat) / ((2 : Nat) : Rat) * 100, type := "int",
              sample_values := ["0"] } : ColumnStat))
        ∈ CT.analyze_column_population [[("a", JValue.num 0)], [("a", JValue.null)]])
    ∧ ({ populated := (1 : Nat), total := 2,
         percentage := ((1 : Nat) : Rat) / ((2 : Nat) : Rat) * 100, type := "int",
         sample_values := ["0"] } : ColumnStat).populated
        = ([[("a", JValue.num 0)], [("a", JValue.null)]] : List Record).countP
            (fun r => CT.is_populated (pyGet r "a")) := by
  have hmem := ct_acp_entry [[("a", JValue.num 0)], [("a", JValue.null)]] "a"
    ⟨1, ["0"], ["int"]⟩ rfl (by decide) (by decide)
  refine ⟨hmem, ?_⟩
  exact claim_C1_populated_rule.2.2.2.2.2.2.2
    [[("a", JValue.num 0)], [("a", JValue.null)]] "a" _ hmem

/-- Claim C2: the column profiler maps the empty record sequence to the empty
mapping (the `if not records` guard fires before any division), and for every
entry it ever produces the divisor `total` is positive, so the division by
`total` can never be a division by zero. -/
theorem claim_C2_empty_records :
    CT.analyze_column_population ([] : List Record) = []
    ∧ PG.analyze_column_population ([] : List Record) = []
    ∧ ∀ (records : List Record) (col : String) (stat : ColumnStat),
        (col, stat) ∈ CT.analyze_column_population records → 0 < stat.total := by
  refine ⟨rfl, rfl, ?_⟩
  intro records col stat h
  have htot := (ct_acp_mem_spec records col stat h).2.1
  by_cases he : records.isEmpty = true
  · rw [CT.analyze_column_population, if_pos he] at h
    exact absurd h (List.not_mem_nil _)
  · rw [htot]
    have : records ≠ [] := by
      intro hnil
      exact he (by simp [hnil])
    exact List.length_pos.mpr this

/-- Witness for C2 at a concrete input: the single-record input yields a
statistic with positive total. -/
theorem claim_C2_witness :
    (("k", ({ populated := (1 : Nat), total := 1,
              percentage := ((1 : Nat) : Rat) / ((1 : Nat) : Rat) * 100, type := "str",
              sample_values := ["v"] } : ColumnStat))
        ∈ CT.analyze_column_population [[("k", JValue.str "v")]])
    ∧ 0 < ({ populated := (1 : Nat), total := 1,
             percentage := ((1 : Nat) : Rat) / ((1 : Nat) : Rat) * 100, type := "str",
             sample_values := ["v"] } : ColumnStat).total := by
  have hmem := ct_acp_entry [[("k", JValue.str "v")]] "k"
    ⟨1, ["v"], ["str"]⟩ rfl (by decide) (by decide)
  refine ⟨hmem, ?_⟩
  exact claim_C2_empty_records.2.2 [[("k", JValue.str "v")]] "k" _ hmem

/-- Claim C4: for every record sequence, the key set of the column profiler
output equals the union of keys across all input records, and the columns
are listed in ascending lexicographic order (pairwise ordered, no
duplicates). -/
theorem claim_C4_column_universe (records : List Record) :
    (∀ c : String,
        c ∈ (CT.analyze_column_population records).map Prod.fst
          ↔ ∃ r ∈ records, c ∈ r.map Prod.fst)
    ∧ List.Pairwise lexLe ((CT.analyze_column_population records).map Prod.fst)
    ∧ ((CT.analyze_column_population records).map Prod.fst).Nodup := by
  by_cases he : records.isEmpty = true
  · have hnil : records = [] := List.isEmpty_iff.mp he
    subst hnil
    refine ⟨?_, ?_, ?_⟩ <;> simp [CT.analyze_column_population]
  · have hkeys : (CT.analyze_column_population records).map Prod.fst
        = pySorted (CT.all_columns records) := by
      unfold CT.analyze_column_population
      rw [if_neg he, List.map_map]
      have : (Prod.fst ∘ fun col : String =>
          (col,
            ({ populated := (records.foldl (CT.colStep col) ⟨0, [], []⟩).populated
               total := records.length
               percentage :=
                 ((records.foldl (CT.colStep col) ⟨0, [], []⟩).populated : Rat)
                   / (records.length : Rat) * 100
               type := if (records.foldl (CT.colStep col) ⟨0, [], []⟩).dtypes.isEmpty
                       then "unknown"
                       else String.intercalate ", "
                         (records.foldl (CT.colStep col) ⟨0, [], []⟩).dtypes
               sample_values := (records.foldl (CT.colStep col) ⟨0, [], []⟩).samples }
              : ColumnStat))) = id := by
        funext col
        rfl
      rw [this, List.map_id]
    rw [hkeys]
    refine ⟨?_, sorted_lexLe_pySorted _, ?_⟩
    · intro c
      rw [mem_pySorted, CT.all_columns, List.mem_dedup]
      refine (mem_foldl_append (fun r : Record => r.map Prod.fst) records [] c).trans ?_
      simp
    · exact (perm_pySorted _).nodup_iff.mpr (List.nodup_dedup _)

/-- Claim C8: for every record sequence and column, the sample values are
exactly the renderings of the first min(3, populated count) populated values
in record order; containers are rendered as a `type-name with n items`
descriptor, scalars are stringified, truncated to 50 characters and suffixed
with an ellipsis when longer, and reproduced exactly when not. -/
theorem claim_C8_sample_values :
    (∀ (records : List Record) (col : String) (stat : ColumnStat),
        (col, stat) ∈ CT.analyze_column_population records →
        stat.sample_values
          = ((records.filter fun r => CT.is_populated (pyGet r col)).map
              fun r => CT.formatSample (pyGet r col)).take 3
        ∧ stat.sample_values.length
            = min 3 (records.countP fun r => CT.is_populated (pyGet r col)))
    ∧ (∀ xs : List JValue,
        CT.formatSample (JValue.arr xs) = "list with " ++ toString xs.length ++ " items")
    ∧ (∀ fs : List (String × JValue),
        CT.formatSample (JValue.obj fs) = "dict with " ++ toString fs.length ++ " items")
    ∧ (∀ v : JValue, isScalarValue v = true →
        ((pyStr v).length > 50 → CT.formatSample v = (pyStr v).take 50 ++ "...")
        ∧ ((pyStr v).length ≤ 50 → CT.formatSample v = pyStr v)) := by
  refine ⟨?_, fun xs => rfl, fun fs => rfl, ?_⟩
  · intro records col stat h
    obtain ⟨_, _, hs⟩ := ct_acp_mem_spec records col stat h
    refine ⟨hs, ?_⟩
    rw [hs, List.length_take, List.length_map, ← List.countP_eq_length_filter]
  · intro v hv
    constructor
    · intro hlong
      cases v with
      | null => simp only [CT.formatSample]; rw [if_pos hlong]
      | bool b => cases b <;> (simp only [CT.formatSample]; rw [if_pos hlong])
      | num n => simp only [CT.formatSample]; rw [if_pos hlong]
      | str s => simp only [CT.formatSample]; rw [if_pos hlong]
      | arr xs => simp [isScalarValue] at hv
      | obj fs => simp [isScalarValue] at hv
    · intro hle
      cases v with
      | null => simp only [CT.formatSample]; rw [if_neg (not_lt.mpr hle)]
      | bool b => cases b <;> (simp only [CT.formatSample]; rw [if_neg (not_lt.mpr hle)])
      | num n => simp only [CT.formatSample]; rw [if_neg (not_lt.mpr hle)]
      | str s => simp only [CT.formatSample]; rw [if_neg (not_lt.mpr hle)]
      | arr xs => simp [isScalarValue] at hv
      | obj fs => simp [isScalarValue] at hv

/-- The number of populated values the nested-field profiler works on is the
number of records whose value for the field is present and truthy. -/
theorem ct_field_values_length (records : List Record) (f : String) :
    (CT.field_values records f).length
      = records.countP (fun r => truthy (pyGet r f)) := by
  unfold CT.field_values
  rw [← List.countP_eq_length_filter, List.countP_map]
  rfl

/-- Whenever the nested-field profiler reports a populated count, that count
is the number of populated values. -/
theorem ct_ajf_found_count (records : List Record) (f : String) (n : Nat) (s : ShapeInfo)
    (h : CT.analyze_jsonb_field records f = .ok (.found n s)) :
    n = (CT.field_values records f).length := by
  unfold CT.analyze_jsonb_field at h
  cases hfv : CT.field_values records f with
  | nil =>
    rw [hfv] at h
    simp at h
  | cons first rest =>
    rw [hfv] at h
    cases first with
    | arr xs =>
      dsimp only at h
      cases h1 : ((JValue.arr xs :: rest).take 5).mapM pyLen with
      | error e => rw [h1] at h; simp at h
      | ok lengths =>
        rw [h1] at h
        dsimp only at h
        cases h2 : CT.findSampleSource (JValue.arr xs :: rest) with
        | error e => rw [h2] at h; simp at h
        | ok src =>
          rw [h2] at h
          dsimp only at h
          cases h3 : CT.sampleItemReport src with
          | error e => rw [h3] at h; simp at h
          | ok item =>
            rw [h3] at h
            simp only [Except.ok.injEq, JsonbReport.found.injEq] at h
            exact h.1.symm
    | obj fs =>
      dsimp only at h
      simp only [Except.ok.injEq, JsonbReport.found.injEq] at h
      exact h.1.symm
    | null =>
      dsimp only at h
      simp only [Except.ok.injEq, JsonbReport.found.injEq] at h
      exact h.1.symm
    | bool b =>
      dsimp only at h
      simp only [Except.ok.injEq, JsonbReport.found.injEq] at h
      exact h.1.symm
    | num m =>
      dsimp only at h
      simp only [Except.ok.injEq, JsonbReport.found.injEq] at h
      exact h.1.symm
    | str s2 =>
      dsimp only at h
      simp only [Except.ok.injEq, JsonbReport.found.injEq] at h
      exact h.1.symm

/-- Claim C7: the nested-field profiler includes a value in its populated set
iff it is present and truthy: `None`, `False`, `0`, `''`, `[]` and the
empty dict are all excluded; in particular, unlike the column profiler,
it excludes the empty dict, `0` and `False`.  The count it reports is the
number of such values. -/
theorem claim_C7_truthiness_filter :
    (∀ v : JValue,
        truthy v = true
          ↔ ¬(v = JValue.null ∨ v = JValue.bool false ∨ v = JValue.num 0
              ∨ v = JValue.str "" ∨ v = JValue.arr [] ∨ v = JValue.obj []))
    ∧ truthy (JValue.obj []) = false
    ∧ truthy (JValue.num 0) = false
    ∧ truthy (JValue.bool false) = false
    ∧ CT.is_populated (JValue.obj []) = true
    ∧ CT.is_populated (JValue.num 0) = true
    ∧ CT.is_populated (JValue.bool false) = true
    ∧ (∀ (records : List Record) (f : String) (v : JValue),
        v ∈ CT.field_values records f
          ↔ truthy v = true ∧ ∃ r ∈ records, pyGet r f = v)
    ∧ (∀ (records : List Record) (f : String) (n : Nat) (s : ShapeInfo),
        CT.analyze_jsonb_field records f = .ok (.found n s) →
        n = records.countP (fun r => truthy (pyGet r f))) := by
  refine ⟨?_, rfl, rfl, rfl, rfl, rfl, rfl, ?_, ?_⟩
  · intro v
    cases v with
    | null => simp [truthy]
    | bool b => cases b <;> simp [truthy]
    | num n => simp [truthy]
    | str s =>
      simp [truthy]
      rw [← String.isEmpty_iff]
      simp
    | arr xs => simp [truthy, List.isEmpty_iff]
    | obj fs => simp [truthy, List.isEmpty_iff]
  · intro records f v
    unfold CT.field_values
    rw [List.mem_filter, List.mem_map]
    exact and_comm
  · intro records f n s h
    rw [ct_ajf_found_count records f n s h, ct_field_values_length]

/-- Witness for C7 at a concrete input: a single record whose field value is
the number 5 (truthy, shape matching neither branch). -/
theorem claim_C7_witness :
    (JValue.num 5 ∈ CT.field_values [[("z", JValue.num 5)]] "z"
      ↔ truthy (JValue.num 5) = true
        ∧ ∃ r ∈ ([[("z", JValue.num 5)]] : List Record), pyGet r "z" = JValue.num 5)
    ∧ 1 = ([[("z", JValue.num 5)]] : List Record).countP
        (fun r => truthy (pyGet r "z")) :=
  ⟨claim_C7_truthiness_filter.2.2.2.2.2.2.2.1 [[("z", JValue.num 5)]] "z" (JValue.num 5),
   claim_C7_truthiness_filter.2.2.2.2.2.2.2.2 [[("z", JValue.num 5)]] "z" 1
     ShapeInfo.noStructure rfl⟩

/-- The fold step of the object branch appends the keys of dict values. -/
theorem foldl_objKeys_step :
    (fun (acc : List String) (value : JValue) =>
      match value with
      | JValue.obj ks => acc ++ ks.map Prod.fst
      | _ => acc)
    = fun (acc : List String) (value : JValue) => acc ++ objKeys value := by
  funext acc value
  cases value <;> simp [objKeys]

/-- Membership in the sorted key union. -/
theorem mem_sortedObjKeys (l : List JValue) (k : String) :
    k ∈ sortedObjKeys l ↔ ∃ v ∈ l, k ∈ objKeys v := by
  unfold sortedObjKeys
  rw [foldl_objKeys_step, mem_pySorted, List.mem_dedup]
  exact (mem_foldl_append objKeys l [] k).trans (by simp)

/-- Claim C5: when the first populated value of the field is an object, the
profiler reports the key set as the union of keys across all populated
object values (sorted, without duplicates), while the per-key runtime types,
and for scalar values the 50-character-truncated stringification, come from
the first populated object only. -/
theorem claim_C5_object_branch (records : List Record) (f : String)
    (fs : List (String × JValue)) (rest : List JValue)
    (h : CT.field_values records f = JValue.obj fs :: rest) :
    CT.analyze_jsonb_field records f
      = .ok (.found (CT.field_values records f).length
          (.objectShape (sortedObjKeys (CT.field_values records f))
            (fs.map fun kv =>
              (kv.1, typeName kv.2,
                if CT.isScalarForPrint kv.2 then some ((pyStr kv.2).take 50) else none))))
    ∧ (∀ k : String,
        k ∈ sortedObjKeys (CT.field_values records f)
          ↔ ∃ v ∈ CT.field_values records f, k ∈ objKeys v)
    ∧ List.Pairwise lexLe (sortedObjKeys (CT.field_values records f))
    ∧ (sortedObjKeys (CT.field_values records f)).Nodup := by
  refine ⟨?_, fun k => mem_sortedObjKeys _ k, sorted_lexLe_pySorted _, ?_⟩
  · unfold CT.analyze_jsonb_field
    rw [h]
    rfl
  · exact (perm_pySorted _).nodup_iff.mpr (List.nodup_dedup _)

/-- Witness for C5 at the specification scenario: two records whose `c`
values are objects with key sets differing in `k2`. -/
theorem claim_C5_witness :
    CT.analyze_jsonb_field
        [[("c", JValue.obj [("k1", JValue.str "v1")])],
         [("c", JValue.obj [("k1", JValue.str "v1"), ("k2", JValue.num 2)])]] "c"
      = .ok (.found
          (CT.field_values
            [[("c", JValue.obj [("k1", JValue.str "v1")])],
             [("c", JValue.obj [("k1", JValue.str "v1"), ("k2", JValue.num 2)])]] "c").length
          (.objectShape
            (sortedObjKeys (CT.field_values
              [[("c", JValue.obj [("k1", JValue.str "v1")])],
               [("c", JValue.obj [("k1", JValue.str "v1"), ("k2", JValue.num 2)])]] "c"))
            ([("k1", JValue.str "v1")].map fun kv =>
              (kv.1, typeName kv.2,
                if CT.isScalarForPrint kv.2 then some ((pyStr kv.2).take 50) else none)))) :=
  (claim_C5_object_branch
    [[("c", JValue.obj [("k1", JValue.str "v1")])],
     [("c", JValue.obj [("k1", JValue.str "v1"), ("k2", JValue.num 2)])]] "c"
    [("k1", JValue.str "v1")]
    [JValue.obj [("k1", JValue.str "v1"), ("k2", JValue.num 2)]] rfl).1

/-- On an all-arrays population, the `len` comprehension succeeds and yields
the array lengths. -/
theorem ct_mapM_pyLen_arrays :
    ∀ l : List JValue, (∀ v ∈ l, isArr v = true) →
      l.mapM pyLen = Except.ok (l.map arrLen) := by
  intro l
  induction l with
  | nil => intro _; rfl
  | cons v rest ih =>
    intro hall
    have hv := hall v (List.mem_cons_self v rest)
    cases v with
    | arr xs =>
      rw [List.mapM_cons, ih (fun w hw => hall w (List.mem_cons_of_mem _ hw))]
      rfl
    | null => simp [isArr] at hv
    | bool b => simp [isArr] at hv
    | num n => simp [isArr] at hv
    | str s => simp [isArr] at hv
    | obj fs => simp [isArr] at hv

/-- On an all-arrays population, the sample-source scan succeeds and finds
the first non-empty array. -/
theorem ct_findSampleSource_arrays :
    ∀ l : List JValue, (∀ v ∈ l, isArr v = true) →
      CT.findSampleSource l = .ok (l.find? isNonEmptyArr) := by
  intro l
  induction l with
  | nil => intro _; rfl
  | cons v rest ih =>
    intro hall
    have hv := hall v (List.mem_cons_self v rest)
    have ihr := ih (fun w hw => hall w (List.mem_cons_of_mem _ hw))
    cases v with
    | arr xs =>
      cases xs with
      | nil =>
        unfold CT.findSampleSource
        rw [if_neg (by decide), ihr, List.find?_cons_of_neg _ (by decide)]
      | cons x xt =>
        unfold CT.findSampleSource
        rw [if_pos (show truthy (JValue.arr (x :: xt)) = true from rfl)]
        dsimp only [pyLen]
        rw [if_pos (show (x :: xt).length > 0 from Nat.succ_pos xt.length),
          List.find?_cons_of_pos _ (show isNonEmptyArr (JValue.arr (x :: xt)) = true from rfl)]
    | null => simp [isArr] at hv
    | bool b => simp [isArr] at hv
    | num n => simp [isArr] at hv
    | str s => simp [isArr] at hv
    | obj fs => simp [isArr] at hv

/-- Claim C6 (amended): restricted to populations in which every populated
value of the field is an array and the first element of the first non-empty
populated array, when one exists, is an object, the profiler reports the
lengths of exactly the first min(5, populated count) populated arrays in
input order, and the key/type layout of the first element of the first
non-empty populated array, then stops scanning.  (Unrestricted, the code
applies `len` to every populated value, so non-array lengths are included
and unsized values raise, and sampling a non-object element raises.) -/
theorem claim_C6_array_branch (records : List Record) (f : String)
    (hne : (CT.field_values records f).isEmpty = false)
    (hall : ∀ v ∈ CT.field_values records f, isArr v = true)
    (hsample : firstElemObjOk (CT.field_values records f) = true) :
    CT.analyze_jsonb_field records f
      = .ok (.found (CT.field_values records f).length
          (.arrayShape (((CT.field_values records f).take 5).map arrLen)
            (((CT.field_values records f).find? isNonEmptyArr).bind elemLayout)))
    ∧ (((CT.field_values records f).take 5).map arrLen).length
        = min 5 (CT.field_values records f).length := by
  refine ⟨?_, by rw [List.length_map, List.length_take]⟩
  cases hfv : CT.field_values records f with
  | nil => rw [hfv] at hne; simp at hne
  | cons first rest =>
    rw [hfv] at hall hsample
    have hfirst := hall first (List.mem_cons_self first rest)
    cases first with
    | arr xs =>
      unfold CT.analyze_jsonb_field
      rw [hfv]
      dsimp only
      rw [ct_mapM_pyLen_arrays _ (fun w hw => hall w (List.take_subset 5 _ hw))]
      dsimp only
      rw [ct_findSampleSource_arrays _ hall]
      dsimp only
      cases hfind : (JValue.arr xs :: rest).find? isNonEmptyArr with
      | none => rfl
      | some v =>
        have hnea := List.find?_some hfind
        unfold firstElemObjOk at hsample
        rw [hfind] at hsample
        cases v with
        | arr ys =>
          cases ys with
          | nil => simp [isNonEmptyArr] at hnea
          | cons y yt =>
            cases y with
            | obj gs => rfl
            | null => simp at hsample
            | bool b => simp at hsample
            | num n => simp at hsample
            | str s => simp at hsample
            | arr zs => simp at hsample
        | null => simp [isNonEmptyArr] at hnea
        | bool b => simp [isNonEmptyArr] at hnea
        | num n => simp [isNonEmptyArr] at hnea
        | str s => simp [isNonEmptyArr] at hnea
        | obj fs => simp [isNonEmptyArr] at hnea
    | null => simp [isArr] at hfirst
    | bool b => simp [isArr] at hfirst
    | num n => simp [isArr] at hfirst
    | str s => simp [isArr] at hfirst
    | obj fs => simp [isArr] at hfirst

/-- Witness for C6 (amended) at a concrete input: an empty array (filtered
out as falsy) and a one-element array of one object. -/
theorem claim_C6_witness :
    CT.analyze_jsonb_field
        [[("L", JValue.arr [])],
         [("L", JValue.arr [JValue.obj [("city", JValue.str "Oslo")]])]] "L"
      = .ok (.found
          (CT.field_values
            [[("L", JValue.arr [])],
             [("L", JValue.arr [JValue.obj [("city", JValue.str "Oslo")]])]] "L").length
          (.arrayShape
            (((CT.field_values
                [[("L", JValue.arr [])],
                 [("L", JValue.arr [JValue.obj [("city", JValue.str "Oslo")]])]] "L").take 5).map
              arrLen)
            (((CT.field_values
                [[("L", JValue.arr [])],
                 [("L", JValue.arr [JValue.obj [("city", JValue.str "Oslo")]])]] "L").find?
                isNonEmptyArr).bind elemLayout))) :=
  (claim_C6_array_branch
    [[("L", JValue.arr [])],
     [("L", JValue.arr [JValue.obj [("city", JValue.str "Oslo")]])]] "L"
    rfl (by decide) rfl).1

/-- Counterexample to C6 as stated: with populated values
`[[{x: 1}], "ab"]` (first populated value an array, second a string), the
code reports the lengths `[1, 2]` of the first five populated VALUES — the
string length 2 included — whereas the claim predicts a length list of
min(5, number of populated array values) = 1 entries. -/
theorem claim_C6_counterexample :
    CT.analyze_jsonb_field
        [[("f", JValue.arr [JValue.obj [("x", JValue.num 1)]])],
         [("f", JValue.str "ab")]] "f"
      = .ok (.found 2 (.arrayShape [1, 2] (some [("x", "int")])))
    ∧ ((CT.field_values
          [[("f", JValue.arr [JValue.obj [("x", JValue.num 1)]])],
           [("f", JValue.str "ab")]] "f").filter isArr).length = 1
    ∧ ([1, 2] : List Nat).length ≠ min 5 1 :=
  ⟨rfl, rfl, by decide⟩

/-- Claim C9 (amended): the nested-field profiler cannot fail when the first
populated value is not an array: no populated values reports the
no-populated message, an object first value takes the object branch, and a
scalar first value matches neither branch and is silently skipped (only the
populated count is reported).  (When the first populated value IS an array,
the profiler can raise, so the claim fails as stated; see the
counterexample.) -/
theorem claim_C9_non_array_head_safe (records : List Record) (f : String)
    (h : headIsArr (CT.field_values records f) = false) :
    (∃ rep : JsonbReport, CT.analyze_jsonb_field records f = .ok rep)
    ∧ (∀ (v : JValue) (rest : List JValue),
        CT.field_values records f = v :: rest → notContainer v = true →
        CT.analyze_jsonb_field records f
          = .ok (.found (CT.field_values records f).length ShapeInfo.noStructure)) := by
  constructor
  · cases hfv : CT.field_values records f with
    | nil =>
      refine ⟨JsonbReport.noPopulated, ?_⟩
      unfold CT.analyze_jsonb_field
      rw [hfv]
    | cons first rest =>
      cases first with
      | arr xs =>
        rw [hfv] at h
        simp [headIsArr] at h
      | obj fs =>
        refine ⟨JsonbReport.found (JValue.obj fs :: rest).length
          (.objectShape (sortedObjKeys (JValue.obj fs :: rest))
            (fs.map fun kv =>
              (kv.1, typeName kv.2,
                if CT.isScalarForPrint kv.2 then some ((pyStr kv.2).take 50) else none))), ?_⟩
        unfold CT.analyze_jsonb_field
        rw [hfv]
        rfl
      | null =>
        refine ⟨JsonbReport.found (JValue.null :: rest).length ShapeInfo.noStructure, ?_⟩
        unfold CT.analyze_jsonb_field
        rw [hfv]
      | bool b =>
        refine ⟨JsonbReport.found (JValue.bool b :: rest).length ShapeInfo.noStructure, ?_⟩
        unfold CT.analyze_jsonb_field
        rw [hfv]
      | num n =>
        refine ⟨JsonbReport.found (JValue.num n :: rest).length ShapeInfo.noStructure, ?_⟩
        unfold CT.analyze_jsonb_field
        rw [hfv]
      | str s =>
        refine ⟨JsonbReport.found (JValue.str s :: rest).length ShapeInfo.noStructure, ?_⟩
        unfold CT.analyze_jsonb_field
        rw [hfv]
  · intro v rest hfv hv
    unfold CT.analyze_jsonb_field
    rw [hfv]
    cases v with
    | arr xs => simp [notContainer] at hv
    | obj fs => simp [notContainer] at hv
    | null => rfl
    | bool b => rfl
    | num n => rfl
    | str s => rfl

/-- Witness for C9 (amended) at a concrete input: a single truthy string
value, skipped silently with only the count reported. -/
theorem claim_C9_witness :
    CT.analyze_jsonb_field [[("s", JValue.str "hello")]] "s"
      = .ok (.found (CT.field_values [[("s", JValue.str "hello")]] "s").length
          ShapeInfo.noStructure) :=
  (claim_C9_non_array_head_safe [[("s", JValue.str "hello")]] "s" rfl).2
    (JValue.str "hello") [] rfl rfl

/-- Counterexample to C9 as stated: on a populated value that is an array of
strings the profiler does fail: sampling `values[0].items()` raises
`AttributeError` instead of skipping the malformed shape. -/
theorem claim_C9_counterexample :
    CT.analyze_jsonb_field [[("g", JValue.arr [JValue.str "a"])]] "g"
      = .error "AttributeError" := rfl

/-- Counterexample to C3 as stated: on the scenario records the empty array
is excluded by the truthiness filter, so the profiler reports array lengths
[1], not [0, 1]. -/
theorem claim_C3_counterexample :
    CT.analyze_jsonb_field
        [[("a", JValue.num 1), ("b", JValue.arr [])],
         [("a", JValue.num 2), ("b", JValue.arr [JValue.obj [("x", JValue.num 1)]])]] "b"
      = .ok (.found 1 (.arrayShape [1] (some [("x", "int")])))
    ∧ ([1] : List Nat) ≠ [0, 1] :=
  ⟨rfl, by decide⟩

/-- Claim C3 (amended): on the scenario records, profiling column `b` yields
an array-shape report whose populated set is the single non-empty array (the
empty array is falsy and filtered out), whose lengths list is [1], and whose
element shape is key `x` of the number type `int`. -/
theorem claim_C3_scenario :
    CT.field_values
        [[("a", JValue.num 1), ("b", JValue.arr [])],
         [("a", JValue.num 2), ("b", JValue.arr [JValue.obj [("x", JValue.num 1)]])]] "b"
      = [JValue.arr [JValue.obj [("x", JValue.num 1)]]]
    ∧ CT.analyze_jsonb_field
        [[("a", JValue.num 1), ("b", JValue.arr [])],
         [("a", JValue.num 2), ("b", JValue.arr [JValue.obj [("x", JValue.num 1)]])]] "b"
      = .ok (.found 1 (.arrayShape [1] (some [("x", "int")])))
    ∧ typeName (JValue.num 1) = "int" :=
  ⟨rfl, rfl, rfl⟩

set_option maxRecDepth 8000 in
/-- Witness for C8 at a concrete input: a single record with a 60-character
string (sampled truncated to 50 characters plus ellipsis) whose statistics
entry is the only one produced. -/
theorem claim_C8_witness :
    (({ populated := (1 : Nat), total := 1,
        percentage := ((1 : Nat) : Rat) / ((1 : Nat) : Rat) * 100, type := "str",
        sample_values := ["aaaaaaaaaaaaaaaaaaaaaaaaaaaaaaaaaaaaaaaaaaaaaaaaaa..."] } : ColumnStat).sample_values
      = ((([[("s", JValue.str "aaaaaaaaaaaaaaaaaaaaaaaaaaaaaaaaaaaaaaaaaaaaaaaaaaaaaaaaaaaa")]] : List Record).filter
            fun r => CT.is_populated (pyGet r "s")).map
          fun r => CT.formatSample (pyGet r "s")).take 3)
    ∧ CT.formatSample (JValue.str "aaaaaaaaaaaaaaaaaaaaaaaaaaaaaaaaaaaaaaaaaaaaaaaaaaaaaaaaaaaa")
        = (pyStr (JValue.str "aaaaaaaaaaaaaaaaaaaaaaaaaaaaaaaaaaaaaaaaaaaaaaaaaaaaaaaaaaaa")).take 50 ++ "..." := by
  have hmem := ct_acp_entry [[("s", JValue.str "aaaaaaaaaaaaaaaaaaaaaaaaaaaaaaaaaaaaaaaaaaaaaaaaaaaaaaaaaaaa")]] "s"
    ⟨1, ["aaaaaaaaaaaaaaaaaaaaaaaaaaaaaaaaaaaaaaaaaaaaaaaaaa..."], ["str"]⟩ rfl (by decide) (by decide)
  exact ⟨(claim_C8_sample_values.1 [[("s", JValue.str "aaaaaaaaaaaaaaaaaaaaaaaaaaaaaaaaaaaaaaaaaaaaaaaaaaaaaaaaaaaa")]] "s" _ hmem).1,
    (claim_C8_sample_values.2.2.2 (JValue.str "aaaaaaaaaaaaaaaaaaaaaaaaaaaaaaaaaaaaaaaaaaaaaaaaaaaaaaaaaaaa") rfl).1 (by decide)⟩

/-- The two scripts' sample-source scans agree. -/
theorem pg_findSampleSource_eq_ct :
    ∀ l : List JValue, PG.findSampleSource l = CT.findSampleSource l := by
  intro l
  induction l with
  | nil => rfl
  | cons v rest ih =>
    unfold PG.findSampleSource CT.findSampleSource
    by_cases h : truthy v = true
    · rw [if_pos h, if_pos h]
      cases hl : pyLen v with
      | error e => rfl
      | ok n =>
        dsimp only
        by_cases hn : n > 0
        · rw [if_pos hn, if_pos hn]
        · rw [if_neg hn, if_neg hn, ih]
    · rw [if_neg h, if_neg h, ih]

/-- The two scripts' sample-item reports agree. -/
theorem pg_sampleItemReport_eq_ct :
    ∀ src : Option JValue, PG.sampleItemReport src = CT.sampleItemReport src := by
  intro src
  cases src with
  | none => rfl
  | some v =>
    unfold PG.sampleItemReport CT.sampleItemReport
    cases h : pyIndex0 v with
    | error e => rfl
    | ok item => dsimp only

/-- Claim C10: the profiler functions of the two scripts compute identical
results on every input: the column profilers agree on every record sequence,
and the nested-field profilers agree on every record sequence and field. -/
theorem claim_C10_equivalence :
    (∀ records : List Record,
        CT.analyze_column_population records = PG.analyze_column_population records)
    ∧ (∀ (records : List Record) (f : String),
        CT.analyze_jsonb_field records f = PG.analyze_jsonb_field records f) := by
  refine ⟨fun _ => rfl, ?_⟩
  intro records f
  unfold CT.analyze_jsonb_field PG.analyze_jsonb_field
  have hfv : PG.field_values records f = CT.field_values records f := rfl
  rw [hfv]
  cases hfv2 : CT.field_values records f with
  | nil => rfl
  | cons first rest =>
    cases first with
    | arr xs =>
      dsimp only
      cases h1 : ((JValue.arr xs :: rest).take 5).mapM pyLen with
      | error e => rfl
      | ok lengths =>
        dsimp only
        rw [pg_findSampleSource_eq_ct]
        cases h2 : CT.findSampleSource (JValue.arr xs :: rest) with
        | error e => rfl
        | ok src =>
          dsimp only
          rw [pg_sampleItemReport_eq_ct]
    | obj fs => rfl
    | null => rfl
    | bool b => rfl
    | num n => rfl
    | str s => rfl
